import Mathlib

/-!
Verification of the sweep/job orchestration engine of the UTA-S4-GUI
backend (`backend/simulation/models.py`, `backend/simulation/sweep.py`,
`backend/simulation/database.py`).

Python floats are modelled as rationals (`ℚ`), Python `int(...)` applied
to a float as truncation toward zero, and Python `round(x, 6)` as decimal
round-half-to-even at six digits.  Fallible operations return `Option`.
-/

namespace S4GUI

/-- Truncation toward zero on rationals, modelling Python `int(x)` for float
`x`: the floor for non-negative values, and `-⌊-q⌋` (the ceiling) for
negative ones. -/
def ratTrunc (q : ℚ) : ℤ := if 0 ≤ q then ⌊q⌋ else -⌊-q⌋

/-- Round half to even to the nearest integer, modelling Python `round(x)`. -/
def roundHalfEven (q : ℚ) : ℤ :=
  if q - ⌊q⌋ = 1/2 then (if Even ⌊q⌋ then ⌊q⌋ else ⌊q⌋ + 1) else round q

/-- `round(x, 6)`: round to six decimal digits (half to even). -/
def round6 (q : ℚ) : ℚ := (roundHalfEven (q * 1000000) : ℚ) / 1000000

/-- `models.MaterialType` -/
inductive MaterialType where
  | vacuum | silicon | glass | gold | pmma | graphene | gaas | siliconSubstrate | custom
deriving DecidableEq

/-- Pattern lattice arrangement literal of `models.LayerDefinition.pattern_type`. -/
inductive PatternType where
  | circle | rectangle | hexagonal
deriving DecidableEq

/-- Hole shape literal of `models.LayerDefinition.hole_shape`. -/
inductive HoleShape where
  | circle | rectangle | ellipse
deriving DecidableEq

/-- `models.LayerDefinition` -/
structure LayerDefinition where
  name : String
  material : MaterialType
  thickness : ℚ
  n : Option ℚ := none
  k : Option ℚ := none
  epsilon_real : Option ℚ := none
  epsilon_imag : Option ℚ := none
  has_pattern : Bool := false
  pattern_type : Option PatternType := some .circle
  hole_shape : Option HoleShape := some .circle
  pattern_material : Option MaterialType := none
  pattern_radius : Option ℚ := none
  pattern_width : Option ℚ := none
  pattern_height : Option ℚ := none
  pattern_fill_factor : Option ℚ := none
  custom_n : Option ℚ := none
  custom_k : Option ℚ := none
  order : ℤ := 0
deriving DecidableEq

/-- `models.AdvancedLayerStack` -/
structure AdvancedLayerStack where
  lattice_constant : ℚ := 1/2
  layers : List LayerDefinition := []
  superstrate : MaterialType := .vacuum
  substrate : MaterialType := .glass
  include_back_reflector : Bool := false
  back_reflector_material : MaterialType := .gold
  back_reflector_thickness : ℚ := 1/10
deriving DecidableEq

/-- `models.ExcitationConfig` -/
structure ExcitationConfig where
  theta : ℚ := 0
  phi : ℚ := 0
  s_amplitude : ℚ := 0
  p_amplitude : ℚ := 1
deriving DecidableEq

/-- `models.WavelengthRange` -/
structure WavelengthRange where
  start : ℚ := 800
  end_ : ℚ := 1200
  step : ℚ := 1
deriving DecidableEq

/-- `models.WavelengthRange.num_points`: `int(abs(end - start) / step) + 1`. -/
def WavelengthRange.num_points (w : WavelengthRange) : ℤ :=
  ratTrunc (|w.end_ - w.start| / w.step) + 1

/-- The `Literal["a", "r", "t", "h", "n", "k"]` type of `models.SweepParameter.name`. -/
inductive SweepName where
  | a | r | t | h | n | k
deriving DecidableEq

/-- `models.SweepParameter` -/
structure SweepParameter where
  name : SweepName
  start : ℚ
  end_ : ℚ
  step : ℚ
deriving DecidableEq

/-- `models.SweepParameter.num_points`:
`1` if `step == 0`, else `int(abs(end - start) / step) + 1`. -/
def SweepParameter.num_points (s : SweepParameter) : ℤ :=
  if s.step = 0 then 1 else ratTrunc (|s.end_ - s.start| / s.step) + 1

/-- `models.SimulationConfig` -/
structure SimulationConfig where
  lattice_constant : ℚ := 1/2
  radius : ℚ := 3/20
  thickness : ℚ := 4/25
  glass_thickness : ℚ := 3
  n_silicon : ℚ := 92/25
  k_silicon : ℚ := 0
  n_glass : ℚ := 307/200
  num_basis : ℤ := 32
  excitation : ExcitationConfig := {}
  wavelength : WavelengthRange := {}
  compute_power : Bool := true
  compute_fields : Bool := true
  use_advanced_stack : Bool := false
  layer_stack : Option AdvancedLayerStack := none
  layer_preset : Option String := none
deriving DecidableEq

/-- `models.SweepConfig` -/
structure SweepConfig where
  base_config : SimulationConfig
  sweeps : List SweepParameter := []
deriving DecidableEq

/-- `models.SweepConfig.total_simulations`:
the product of `num_points` over all sweeps, times
`base_config.wavelength.num_points`. -/
def SweepConfig.total_simulations (sc : SweepConfig) : ℤ :=
  (sc.sweeps.foldl (fun acc s => acc * s.num_points) 1) * sc.base_config.wavelength.num_points

/-- The `param_map` short-name translation in `sweep.generate_sweep_configs`. -/
def param_map : SweepName → String
  | .a => "lattice_constant"
  | .r => "radius"
  | .t => "thickness"
  | .h => "glass_thickness"
  | .n => "n_silicon"
  | .k => "k_silicon"

/-- `config_dict[full_name] = value` followed by `SimulationConfig(**config_dict)`:
overwrite the configuration field that `param_map` assigns to the short name. -/
def setSweepField (c : SimulationConfig) (nm : SweepName) (v : ℚ) : SimulationConfig :=
  match nm with
  | .a => { c with lattice_constant := v }
  | .r => { c with radius := v }
  | .t => { c with thickness := v }
  | .h => { c with glass_thickness := v }
  | .n => { c with n_silicon := v }
  | .k => { c with k_silicon := v }

/-- Read the configuration field that `param_map` assigns to a short name. -/
def getSweepField (nm : SweepName) (c : SimulationConfig) : ℚ :=
  match nm with
  | .a => c.lattice_constant
  | .r => c.radius
  | .t => c.thickness
  | .h => c.glass_thickness
  | .n => c.n_silicon
  | .k => c.k_silicon

/-- `np.linspace(a, b, n).tolist()`: fails for negative `n`; `[]` for `n = 0`;
`[a]` for `n = 1`; otherwise `n` evenly spaced points from `a` to `b` inclusive. -/
def linspaceQ (a b : ℚ) (n : ℤ) : Option (List ℚ) :=
  if n < 0 then none
  else if n = 0 then some []
  else if n = 1 then some [a]
  else some ((List.range n.toNat).map (fun i : ℕ => a + (i : ℚ) * (b - a) / ((n : ℚ) - 1)))

/-- The per-parameter value list of `sweep.generate_sweep_configs`:
`[start]` when `step == 0`, else `np.linspace(start, end, num_points)`. -/
def rangeFor (s : SweepParameter) : Option (List ℚ) :=
  if s.step = 0 then some [s.start] else linspaceQ s.start s.end_ s.num_points

/-- Python dict assignment `d[key] = v`: overwrite in place if the key is
present (keeping its position), else append. -/
def dictInsert (d : List (SweepName × List ℚ)) (key : SweepName) (v : List ℚ) :
    List (SweepName × List ℚ) :=
  if d.any (fun p => p.1 = key) then
    d.map (fun p => if p.1 = key then (key, v) else p)
  else d ++ [(key, v)]

/-- The `param_ranges` dict built by the first loop of
`sweep.generate_sweep_configs`. -/
def buildRanges (sweeps : List SweepParameter) : Option (List (SweepName × List ℚ)) :=
  sweeps.foldlM (fun acc s => (rangeFor s).map (fun r => dictInsert acc s.name r)) []

/-- `itertools.product(*param_values)`: Cartesian product, leftmost list
varying slowest. -/
def cartProd : List (List ℚ) → List (List ℚ)
  | [] => [[]]
  | l :: ls => l.flatMap (fun x => (cartProd ls).map (fun c => x :: c))

/-- The inner substitution loop of `sweep.generate_sweep_configs`:
for each `(name, value)` pair set the mapped field to `round(value, 6)`. -/
def applySubst (c : SimulationConfig) (pairs : List (SweepName × ℚ)) : SimulationConfig :=
  pairs.foldl (fun acc p => setSweepField acc p.1 (round6 p.2)) c

/-- `sweep.generate_sweep_configs`, collected into a list
(`list(generate_sweep_configs(sweep_config))`).  `none` models the
`np.linspace` `ValueError` on a negative point count. -/
def generateList (sc : SweepConfig) : Option (List SimulationConfig) :=
  if sc.sweeps.isEmpty then some [sc.base_config]
  else
    match buildRanges sc.sweeps with
    | none => none
    | some d =>
        let names := d.map Prod.fst
        let values := d.map Prod.snd
        some ((cartProd values).map (fun combo => applySubst sc.base_config (names.zip combo)))

/-- `models.SimulationResult` -/
structure SimulationResult where
  wavelengths : List ℚ
  transmittance : Option (List ℚ) := none
  reflectance : Option (List ℚ) := none
  absorptance : Option (List ℚ) := none
  transmission_phase : Option (List ℚ) := none
  reflection_phase : Option (List ℚ) := none
  config : SimulationConfig
deriving DecidableEq

/-- `models.ProgressUpdate` -/
structure ProgressUpdate where
  current : ℤ
  total : ℤ
  percent : ℚ
  message : String
  estimated_remaining_seconds : Option ℚ := none
deriving DecidableEq

/-- `models.SimulationStatus` -/
inductive SimulationStatus where
  | pending | running | completed | failed | cancelled
deriving DecidableEq

/-- `models.JobInfo` -/
structure JobInfo where
  job_id : String
  status : SimulationStatus
  progress : Option ProgressUpdate := none
  result : Option SimulationResult := none
  error : Option String := none
deriving DecidableEq

/-- `sweep.create_job`: allocate a `JobInfo` in status `PENDING` with
`progress.total = sweep_config.total_simulations`; the generated UUID is
passed in as `job_id`. -/
def create_job (sc : SweepConfig) (job_id : String) : JobInfo :=
  { job_id := job_id
    status := .pending
    progress := some
      { current := 0
        total := sc.total_simulations
        percent := 0
        message := "Job queued" } }

/-- `sweep.cancel_job` acting on the `_active_jobs` entry for one job id:
if the job exists its status is set to `CANCELLED` and `True` is returned,
else `False`. -/
def cancel_job : Option JobInfo → Option JobInfo × Bool
  | some j => (some { j with status := .cancelled }, true)
  | none => (none, false)

/-- The `update_progress` callback defined inside `sweep.run_job`: if the job
exists, store the new progress and set the status to `RUNNING`. -/
def update_progress (p : ProgressUpdate) : Option JobInfo → Option JobInfo
  | some j => some { j with progress := some p, status := .running }
  | none => none

/-- Insertion into a list of index-keyed pairs sorted by index
(helper for `results.sort(key=lambda x: x[0])`). -/
def insertPair {α : Type} (p : ℕ × α) : List (ℕ × α) → List (ℕ × α)
  | [] => [p]
  | q :: qs => if p.1 ≤ q.1 then p :: q :: qs else q :: insertPair p qs

/-- `results.sort(key=lambda x: x[0])` in `sweep.run_sweep`: sort the
collected `(index, result)` pairs by original index. -/
def sortPairs {α : Type} : List (ℕ × α) → List (ℕ × α)
  | [] => []
  | p :: ps => insertPair p (sortPairs ps)

/-- The value returned by `sweep.run_sweep`: the `(index, outcome)` pairs are
collected in worker-completion order (`order`), sorted by original index, and
the failed items (outcome `None`) are dropped:
`return [r[1] for r in results if r[1] is not None]`. -/
def run_sweep_results {α : Type} (outcome : ℕ → Option α) (order : List ℕ) : List α :=
  (sortPairs (order.map (fun i => (i, outcome i)))).filterMap Prod.snd

/-- The `ProgressUpdate` issued by `sweep.run_sweep` after the `k`-th
completion out of `total`, with `elapsedAt k` the wall-clock seconds elapsed
at that moment. -/
def progressAt (total : ℕ) (elapsedAt : ℕ → ℚ) (k : ℕ) : ProgressUpdate :=
  { current := k
    total := total
    percent := 100 * k / total
    message := "Completed " ++ toString k ++ "/" ++ toString total ++ " simulations"
    estimated_remaining_seconds := some (((total : ℚ) - k) * (elapsedAt k / k)) }

/-- The sequence of progress updates issued by `sweep.run_sweep` over `m`
completion events. -/
def run_sweep_updates (total : ℕ) (elapsedAt : ℕ → ℚ) (m : ℕ) : List ProgressUpdate :=
  (List.range m).map (fun j => progressAt total elapsedAt (j + 1))

/-- The indices submitted to the `ProcessPoolExecutor` by `sweep.run_sweep`
(the `futures` dict comprehension): every index of the expanded configuration
list, unconditionally. -/
def run_sweep_dispatch (sc : SweepConfig) : Option (List ℕ) :=
  (generateList sc).map (fun cs => List.range cs.length)

/-- `sweep.run_job` driving one job: set `RUNNING`, run the sweep (each
completion event stores a progress update via `update_progress`), store the
results and set `COMPLETED`; any exception escaping `run_sweep` (sweep
expansion failure) sets `FAILED` with `error`.  `outcome i` is the result of
`run_single_config` on the `i`-th configuration (`none` = raised), `order`
the worker completion order, `elapsedAt` the elapsed wall-clock time. -/
def run_job (j : JobInfo) (sc : SweepConfig) (outcome : ℕ → Option SimulationResult)
    (order : List ℕ) (elapsedAt : ℕ → ℚ) : JobInfo × Option (List SimulationResult) :=
  match generateList sc with
  | none => ({ j with status := .failed, error := some "sweep expansion failed" }, none)
  | some configs =>
      let j1 := { j with status := .running }
      if configs.length = 0 then
        ({ j1 with
            status := .completed
            progress := j1.progress.map (fun p => { p with message := "Completed successfully" }) },
          some [])
      else
        let j2 := (run_sweep_updates configs.length elapsedAt order.length).foldl
          (fun acc p => { acc with progress := some p, status := .running }) j1
        let results := run_sweep_results outcome order
        ({ j2 with
            status := .completed
            progress := j2.progress.map (fun p => { p with message := "Completed successfully" }) },
          some results)

/-- One row of the `job_results` SQLite table (`database.py`); `result_data`
is stored serialized and parsed back on retrieval, modelled as the value
itself. -/
structure JobResultRow where
  job_id : String
  result_index : ℕ
  result_data : SimulationResult
deriving DecidableEq

/-- The two tables owned by `database.JobDatabase`: job ids present in the
`jobs` table and the rows of the `job_results` table. -/
structure JobDatabase where
  jobs : List String
  results : List JobResultRow

/-- `database.JobDatabase.get_job_results`: select the rows of `job_results`
with the given `job_id` ordered by `result_index`; return `None` if no rows
were selected, else the parsed result list. -/
def JobDatabase.get_job_results (db : JobDatabase) (job_id : String) :
    Option (List SimulationResult) :=
  let sel := sortPairs ((db.results.filter (fun r => r.job_id = job_id)).map
    (fun r => (r.result_index, r.result_data)))
  if sel.isEmpty then none else some (sel.map Prod.snd)

/-! ### Concrete fixtures -/

/-- A `SimulationConfig` with all fields at their declared defaults. -/
def baseDefault : SimulationConfig := {}

/-- A sweep definition with no parameters over the default base configuration. -/
def sweepEmptyDefault : SweepConfig := { base_config := baseDefault }

/-- A sweep whose single parameter has a negative step, making its
`num_points` negative. -/
def sweepNegStep : SweepConfig :=
  { base_config := baseDefault
    sweeps := [{ name := .r, start := 0, end_ := 2, step := -1 }] }

/-- A sweep with two parameters sharing the name `r` (3 and 2 points). -/
def sweepDupNames : SweepConfig :=
  { base_config := baseDefault
    sweeps := [{ name := .r, start := 1, end_ := 3, step := 1 },
               { name := .r, start := 1, end_ := 2, step := 1 }] }

/-- The value of `np.linspace(a, b, n).tolist()` for non-negative `n`
(see `linspaceQ`). -/
def linspaceList (a b : ℚ) (n : ℤ) : List ℚ :=
  if n = 1 then [a]
  else (List.range n.toNat).map (fun i : ℕ => a + (i : ℚ) * (b - a) / ((n : ℚ) - 1))

/-- The value of `rangeFor` when it succeeds: the discrete value list of one
sweep parameter. -/
def rangeList (s : SweepParameter) : List ℚ :=
  if s.step = 0 then [s.start] else linspaceList s.start s.end_ s.num_points

/-- The default configuration with its `radius` field replaced. -/
def withRadius (v : ℚ) : SimulationConfig := { baseDefault with radius := v }

/-- A 2-point integer sweep of `r` (1 and 2) over the default base. -/
def scenarioInt2 : SweepConfig :=
  { base_config := baseDefault
    sweeps := [{ name := .r, start := 1, end_ := 2, step := 1 }] }

/-- A 3-point integer sweep of `r` (1, 2 and 3) over the default base. -/
def scenarioInt3 : SweepConfig :=
  { base_config := baseDefault
    sweeps := [{ name := .r, start := 1, end_ := 3, step := 1 }] }

/-- A `SimulationResult` carrying only its originating configuration. -/
def mkResult (c : SimulationConfig) : SimulationResult :=
  { wavelengths := [], config := c }

/-- A job record whose status is already `COMPLETED`. -/
def completedJob : JobInfo := { job_id := "job-1", status := .completed }

/-- Modelled from the spec: `num_points = floor(|end-start| / step) + 1` when
`step != 0`, else `1`. -/
def specNumPoints (s : SweepParameter) : ℤ :=
  if s.step = 0 then 1 else ⌊|s.end_ - s.start| / s.step⌋ + 1

/-! ### Evaluation lemmas for the fixtures -/

theorem numPoints_step_neg_two :
    ({ name := .r, start := 0, end_ := 3, step := -2 } : SweepParameter).num_points = 0 := by
  simp only [SweepParameter.num_points, ratTrunc]
  norm_num [abs_of_nonneg]

theorem specNumPoints_step_neg_two :
    specNumPoints { name := .r, start := 0, end_ := 3, step := -2 } = -1 := by
  simp only [specNumPoints]
  norm_num [abs_of_nonneg]

theorem numPoints_step_neg_one :
    ({ name := .r, start := 0, end_ := 2, step := -1 } : SweepParameter).num_points = -1 := by
  simp only [SweepParameter.num_points, ratTrunc]
  norm_num [abs_of_nonneg]

theorem wavelength_default_401 : baseDefault.wavelength.num_points = 401 := by
  simp only [baseDefault, WavelengthRange.num_points, ratTrunc]
  norm_num [abs_of_nonneg]

/-! ### C1: terminal states -/

/-- C1 counterexample: the claim "once the job's status is a terminal state
no subsequent operation changes the status; in particular `cancel_job` on a
`Completed` job leaves the status unchanged" is false: `cancel_job` applied
to a job whose status is `COMPLETED` changes the status to `CANCELLED`. -/
theorem cancel_job_on_completed_changes_status :
    completedJob.status = SimulationStatus.completed ∧
    (cancel_job (some completedJob)).2 = true ∧
    (cancel_job (some completedJob)).1.map JobInfo.status = some SimulationStatus.cancelled ∧
    SimulationStatus.cancelled ≠ SimulationStatus.completed := by
  refine ⟨rfl, rfl, rfl, by decide⟩

/-- C1 amended: `cancel_job` on an existing job sets its status to
`CANCELLED` regardless of the current status (returning `True`), the
`run_job` progress callback sets the status of an existing job to `RUNNING`
regardless of the current status, and `cancel_job` on a missing job returns
`False`; terminal states are not preserved by these operations. -/
theorem cancel_and_progress_ignore_terminal_states (j : JobInfo) (p : ProgressUpdate) :
    (cancel_job (some j)).1.map JobInfo.status = some SimulationStatus.cancelled ∧
    (cancel_job (some j)).2 = true ∧
    (update_progress p (some j)).map JobInfo.status = some SimulationStatus.running ∧
    cancel_job none = (none, false) := by
  refine ⟨rfl, rfl, rfl, rfl⟩

/-! ### Sorting helpers -/

theorem insertPair_perm {α : Type} (p : ℕ × α) (l : List (ℕ × α)) :
    (insertPair p l).Perm (p :: l) := by
  induction l with
  | nil => simp [insertPair]
  | cons q qs ih =>
      by_cases h : p.1 ≤ q.1
      · simp [insertPair, h]
      · simp only [insertPair, if_neg h]
        exact (ih.cons q).trans (List.Perm.swap p q qs)

theorem sortPairs_perm {α : Type} (l : List (ℕ × α)) : (sortPairs l).Perm l := by
  induction l with
  | nil => simp [sortPairs]
  | cons p ps ih => exact (insertPair_perm p (sortPairs ps)).trans (ih.cons p)

theorem insertPair_sorted {α : Type} (p : ℕ × α) (l : List (ℕ × α))
    (hl : l.Pairwise (fun x y => x.1 ≤ y.1)) :
    (insertPair p l).Pairwise (fun x y => x.1 ≤ y.1) := by
  induction l with
  | nil => simp [insertPair]
  | cons q qs ih =>
      rcases List.pairwise_cons.mp hl with ⟨hq, hqs⟩
      by_cases h : p.1 ≤ q.1
      · simp only [insertPair, if_pos h]
        refine List.pairwise_cons.mpr ⟨?_, hl⟩
        intro x hx
        rcases List.mem_cons.mp hx with rfl | hx
        · exact h
        · exact le_trans h (hq x hx)
      · simp only [insertPair, if_neg h]
        refine List.pairwise_cons.mpr ⟨?_, ih hqs⟩
        intro x hx
        have hx2 := (insertPair_perm p qs).mem_iff.mp hx
        rcases List.mem_cons.mp hx2 with rfl | hx3
        · exact le_of_lt (lt_of_not_le h)
        · exact hq x hx3

theorem sortPairs_sorted {α : Type} (l : List (ℕ × α)) :
    (sortPairs l).Pairwise (fun x y => x.1 ≤ y.1) := by
  induction l with
  | nil => simp [sortPairs]
  | cons p ps ih => exact insertPair_sorted p (sortPairs ps) ih

theorem eq_of_perm_keySorted {α : Type} (l m : List (ℕ × α)) (h : l.Perm m)
    (hl : l.Pairwise (fun x y => x.1 ≤ y.1))
    (hm : m.Pairwise (fun x y => x.1 < y.1)) : l = m := by
  haveI : IsAntisymm (ℕ × α) (fun x y => x.1 < y.1) :=
    ⟨fun a b h1 h2 => absurd (lt_trans h1 h2) (lt_irrefl _)⟩
  have hmnodup : (m.map Prod.fst).Nodup :=
    List.pairwise_map.mpr (hm.imp (fun hxy => ne_of_lt hxy))
  have hlnodup : (l.map Prod.fst).Nodup := ((h.map Prod.fst).nodup_iff).mpr hmnodup
  have hlne : l.Pairwise (fun x y => x.1 ≠ y.1) := List.pairwise_map.mp hlnodup
  have hllt : l.Pairwise (fun x y => x.1 < y.1) :=
    (hl.and hlne).imp (fun hxy => lt_of_le_of_ne hxy.1 hxy.2)
  exact List.eq_of_perm_of_sorted h hllt hm

theorem sortPairs_of_perm_range {α : Type} (f : ℕ → α) (order : List ℕ) (n : ℕ)
    (h : order.Perm (List.range n)) :
    sortPairs (order.map (fun i => (i, f i))) = (List.range n).map (fun i => (i, f i)) := by
  refine eq_of_perm_keySorted _ _ ?_ (sortPairs_sorted _) ?_
  · exact (sortPairs_perm _).trans (h.map _)
  · refine List.pairwise_map.mpr ?_
    exact (List.pairwise_lt_range n).imp (fun hij => hij)

/-! ### C10: get_job_results on missing jobs and empty result sets -/

/-- C10: `JobDatabase.get_job_results` returns `None` exactly when the
`job_results` table holds no row for the requested id — in particular also
when the job exists but has zero stored results, making such a job
indistinguishable from an unknown id at this interface — and it never
returns an empty list. -/
theorem get_job_results_none_iff (db : JobDatabase) (id : String) :
    (db.get_job_results id = none ↔ ∀ r ∈ db.results, r.job_id ≠ id) ∧
    db.get_job_results id ≠ some [] ∧
    (id ∈ db.jobs → (∀ r ∈ db.results, r.job_id ≠ id) → db.get_job_results id = none) := by
  have hlen : ∀ (l : List (ℕ × SimulationResult)), (sortPairs l).length = l.length :=
    fun l => (sortPairs_perm l).length_eq
  have hempty : (sortPairs ((db.results.filter (fun r => r.job_id = id)).map
      (fun r => (r.result_index, r.result_data)))).isEmpty = true ↔
      ∀ r ∈ db.results, r.job_id ≠ id := by
    rw [List.isEmpty_iff_length_eq_zero, hlen, List.length_map,
      List.length_eq_zero, List.filter_eq_nil_iff]
    simp
  constructor
  · rw [JobDatabase.get_job_results]
    constructor
    · intro hnone
      by_cases hc : (sortPairs ((db.results.filter (fun r => r.job_id = id)).map
          (fun r => (r.result_index, r.result_data)))).isEmpty
      · exact hempty.mp hc
      · rw [if_neg hc] at hnone
        exact absurd hnone (by simp)
    · intro hall
      rw [if_pos (hempty.mpr hall)]
  · constructor
    · rw [JobDatabase.get_job_results]
      by_cases hc : (sortPairs ((db.results.filter (fun r => r.job_id = id)).map
          (fun r => (r.result_index, r.result_data)))).isEmpty
      · rw [if_pos hc]; simp
      · rw [if_neg hc]
        intro hcontra
        have := Option.some_injective _ hcontra
        rw [List.map_eq_nil_iff] at this
        rw [this] at hc
        simp at hc
    · intro _ hall
      rw [JobDatabase.get_job_results, if_pos (hempty.mpr hall)]

/-- Witness for `get_job_results_none_iff`: a database whose `jobs` table
holds `job-1` with no rows in `job_results` yields `None`. -/
theorem get_job_results_none_iff_witness :
    JobDatabase.get_job_results { jobs := ["job-1"], results := [] } "job-1" = none :=
  (get_job_results_none_iff { jobs := ["job-1"], results := [] } "job-1").2.2
    (by simp) (fun r hr => absurd hr (List.not_mem_nil r))

/-! ### Expansion failure on negative point counts -/

theorem rangeFor_none_of_neg (s : SweepParameter) (h : s.num_points < 0) :
    rangeFor s = none := by
  by_cases hs : s.step = 0
  · exfalso
    rw [SweepParameter.num_points, if_pos hs] at h
    exact absurd h (by decide)
  · rw [rangeFor, if_neg hs, linspaceQ, if_pos h]

theorem buildRanges_none_of_neg (sweeps : List SweepParameter)
    (h : ∃ s ∈ sweeps, s.num_points < 0) : buildRanges sweeps = none := by
  rw [buildRanges]
  suffices hgen : ∀ acc : List (SweepName × List ℚ),
      List.foldlM (fun acc s => (rangeFor s).map (fun r => dictInsert acc s.name r)) acc
        sweeps = none by
    exact hgen []
  induction sweeps with
  | nil => rcases h with ⟨s, hs, _⟩; exact absurd hs (List.not_mem_nil s)
  | cons s0 rest ih =>
      intro acc
      rw [List.foldlM_cons]
      cases hr : rangeFor s0 with
      | none => rfl
      | some r =>
          rcases h with ⟨s, hs, hneg⟩
          rcases List.mem_cons.mp hs with rfl | hmem
          · rw [rangeFor_none_of_neg _ hneg] at hr
            exact Option.noConfusion hr
          · exact ih ⟨s, hmem, hneg⟩ (dictInsert acc s0.name r)

theorem generateList_none_of_neg (sc : SweepConfig)
    (h : ∃ s ∈ sc.sweeps, s.num_points < 0) : generateList sc = none := by
  have hne : ¬ sc.sweeps.isEmpty := by
    rcases h with ⟨s, hs, _⟩
    intro he
    rw [List.isEmpty_iff] at he
    rw [he] at hs
    exact absurd hs (List.not_mem_nil s)
  rw [generateList, if_neg hne, buildRanges_none_of_neg sc.sweeps h]

/-! ### C4: InvalidParameterError -/

/-- C4 counterexample: the sweep parameter `{r, start 0, end 2, step -1}` has
`num_points = -1 ≤ 0`, yet submission does not raise: `create_job` still
allocates a job record in `PENDING`, and the failure only surfaces when the
job is run, as a transition to `FAILED` — no `InvalidParameterError` exists
in the code. -/
theorem invalid_parameter_counterexample :
    (SweepParameter.num_points { name := .r, start := 0, end_ := 2, step := -1 }) = -1 ∧
    ((-1 : ℤ) ≤ 0) ∧
    (create_job sweepNegStep "job-1").status = SimulationStatus.pending ∧
    (run_job (create_job sweepNegStep "job-1") sweepNegStep (fun _ => none) []
      (fun _ => 0)).1.status = SimulationStatus.failed := by
  refine ⟨numPoints_step_neg_one, by decide, rfl, ?_⟩
  have hgen : generateList sweepNegStep = none := by
    refine generateList_none_of_neg _
      ⟨{ name := .r, start := 0, end_ := 2, step := -1 }, ?_, ?_⟩
    · rw [sweepNegStep]
      exact List.mem_singleton.mpr rfl
    · rw [numPoints_step_neg_one]; decide
  rw [run_job, hgen]

/-- C4 amended: the code never raises `InvalidParameterError` (no such error
exists).  Every submission creates a job record in `PENDING`; every legal
parameter name (the six literals) maps to an existing configuration field;
and a sweep containing a parameter with negative `num_points` fails only when
the job runs, transitioning that job to `FAILED` rather than being rejected
at submission. -/
theorem no_invalid_parameter_error (sc : SweepConfig) (id : String) :
    (create_job sc id).status = SimulationStatus.pending ∧
    (∀ (nm : SweepName) (c : SimulationConfig) (v : ℚ),
      getSweepField nm (setSweepField c nm v) = v) ∧
    ((∃ s ∈ sc.sweeps, s.num_points < 0) →
      ∀ (outcome : ℕ → Option SimulationResult) (order : List ℕ) (elapsedAt : ℕ → ℚ),
        (run_job (create_job sc id) sc outcome order elapsedAt).1.status =
          SimulationStatus.failed) := by
  refine ⟨rfl, ?_, ?_⟩
  · intro nm c v
    cases nm <;> rfl
  · intro h outcome order elapsedAt
    rw [run_job, generateList_none_of_neg sc h]

/-- Witness for `no_invalid_parameter_error` at the negative-step sweep. -/
theorem no_invalid_parameter_error_witness :
    (run_job (create_job sweepNegStep "job-1") sweepNegStep (fun _ => none) []
      (fun _ => 0)).1.status = SimulationStatus.failed :=
  (no_invalid_parameter_error sweepNegStep "job-1").2.2
    ⟨{ name := .r, start := 0, end_ := 2, step := -1 },
      by rw [sweepNegStep]; exact List.mem_singleton.mpr rfl,
      by rw [numPoints_step_neg_one]; decide⟩
    (fun _ => none) [] (fun _ => 0)

/-! ### Concrete expansion evaluations -/

theorem numPoints_int3 :
    ({ name := .r, start := 1, end_ := 3, step := 1 } : SweepParameter).num_points = 3 := by
  simp only [SweepParameter.num_points, ratTrunc]
  norm_num [abs_of_nonneg]

theorem numPoints_int2 :
    ({ name := .r, start := 1, end_ := 2, step := 1 } : SweepParameter).num_points = 2 := by
  simp only [SweepParameter.num_points, ratTrunc]
  norm_num [abs_of_nonneg]

theorem round6_int (n : ℤ) : round6 ((n : ℚ)) = n := by
  have h1 : ((n : ℚ)) * 1000000 = ((n * 1000000 : ℤ) : ℚ) := by push_cast; ring
  rw [round6, roundHalfEven, h1, Int.floor_intCast]
  rw [if_neg (by simp)]
  rw [round_intCast]
  push_cast
  field_simp

theorem round6_one : round6 (1 : ℚ) = 1 := by
  rw [show (1 : ℚ) = ((1 : ℤ) : ℚ) by norm_num, round6_int]

theorem round6_two : round6 (2 : ℚ) = 2 := by
  rw [show (2 : ℚ) = ((2 : ℤ) : ℚ) by norm_num, round6_int]

theorem round6_three : round6 (3 : ℚ) = 3 := by
  rw [show (3 : ℚ) = ((3 : ℤ) : ℚ) by norm_num, round6_int]

theorem linspace_1_3_3 : linspaceQ 1 3 3 = some [1, 2, 3] := by
  rw [linspaceQ]
  norm_num
  rw [show List.range (3:ℤ).toNat = [0, 1, 2] from rfl]
  simp [List.map]
  norm_num

theorem linspace_1_2_2 : linspaceQ 1 2 2 = some [1, 2] := by
  rw [linspaceQ]
  norm_num
  rw [show List.range (2:ℤ).toNat = [0, 1] from rfl]
  simp [List.map]
  norm_num

theorem generate_scenarioInt3 :
    generateList scenarioInt3 = some [withRadius 1, withRadius 2, withRadius 3] := by
  have hr : rangeFor { name := .r, start := 1, end_ := 3, step := 1 } = some [1, 2, 3] := by
    rw [rangeFor, if_neg (by norm_num), numPoints_int3, linspace_1_3_3]
  rw [generateList]
  rw [if_neg (by simp [scenarioInt3])]
  rw [show scenarioInt3.sweeps = [{ name := .r, start := 1, end_ := 3, step := 1 }] from rfl]
  rw [show buildRanges [{ name := .r, start := 1, end_ := 3, step := 1 }] =
    some [(SweepName.r, [1, 2, 3])] by
      rw [buildRanges, List.foldlM_cons, hr]
      rfl]
  simp only [cartProd, applySubst, List.foldl, setSweepField, List.map, List.flatMap]
  rw [round6_one, round6_two, round6_three]
  simp [withRadius, baseDefault, scenarioInt3]

theorem generate_scenarioInt2 :
    generateList scenarioInt2 = some [withRadius 1, withRadius 2] := by
  have hr : rangeFor { name := .r, start := 1, end_ := 2, step := 1 } = some [1, 2] := by
    rw [rangeFor, if_neg (by norm_num), numPoints_int2, linspace_1_2_2]
  rw [generateList]
  rw [if_neg (by simp [scenarioInt2])]
  rw [show scenarioInt2.sweeps = [{ name := .r, start := 1, end_ := 2, step := 1 }] from rfl]
  rw [show buildRanges [{ name := .r, start := 1, end_ := 2, step := 1 }] =
    some [(SweepName.r, [1, 2])] by
      rw [buildRanges, List.foldlM_cons, hr]
      rfl]
  simp only [cartProd, applySubst, List.foldl, setSweepField, List.map, List.flatMap]
  rw [round6_one, round6_two]
  simp [withRadius, baseDefault, scenarioInt2]

/-! ### C3: num_points -/

theorem scenarioInt3_total_1203 : scenarioInt3.total_simulations = 1203 := by
  rw [SweepConfig.total_simulations]
  rw [show scenarioInt3.sweeps = [{ name := .r, start := 1, end_ := 3, step := 1 }] from rfl]
  rw [List.foldl_cons, List.foldl_nil, one_mul, numPoints_int3]
  rw [show scenarioInt3.base_config.wavelength.num_points =
    baseDefault.wavelength.num_points from rfl, wavelength_default_401]
  decide

/-- C3 counterexample: the claim is false on two counts, both at inputs whose
binary floating-point arithmetic is exact.  For the parameter
`{r, start 0, end 3, step -2}` the code computes `int(abs(3)/(-2)) + 1 = 0`
(truncation toward zero) while the claimed floor formula gives `-1`; and a
job over a single 3-point parameter (`r` from 1 to 3 step 1) has progress
total `3 * 401 = 1203` (the base configuration's wavelength point count
multiplies in), not `3`.  (At the claim's own decimal fixture, `r` from 0.1
to 0.3 step 0.1, the program's IEEE-double arithmetic yields
`int(0.19999999999999998 / 0.1) + 1 = 2` points — job total 802 — behaviour
outside this exact-rational model, so the float-exact 3-point parameter
stands in for it.) -/
theorem num_points_floor_formula_and_total_counterexample :
    (SweepParameter.num_points { name := .r, start := 0, end_ := 3, step := -2 }) = 0 ∧
    specNumPoints { name := .r, start := 0, end_ := 3, step := -2 } = -1 ∧
    ((0 : ℤ) ≠ -1) ∧
    (SweepParameter.num_points { name := .r, start := 1, end_ := 3, step := 1 }) = 3 ∧
    (create_job scenarioInt3 "job-1").progress.map ProgressUpdate.total = some 1203 ∧
    ((1203 : ℤ) ≠ 3) := by
  refine ⟨numPoints_step_neg_two, specNumPoints_step_neg_two, by decide,
    numPoints_int3, ?_, by decide⟩
  show some scenarioInt3.total_simulations = some 1203
  rw [scenarioInt3_total_1203]

/-- C3 amended: `num_points` equals `int(|end - start| / step) + 1` with
`int` truncating toward zero — which agrees with the claimed floor formula
whenever `step > 0` — and equals `1` when `step = 0`; the float-exact
parameter `r` from 1 to 3 step 1 has `num_points = 3`, and the job over that
single parameter has progress total `3 * 401 = 1203` (three points times the
default base configuration's 401 wavelength points), not 3. -/
theorem num_points_characterization (s : SweepParameter) :
    (0 < s.step → s.num_points = specNumPoints s) ∧
    (s.step = 0 → s.num_points = 1) ∧
    (SweepParameter.num_points { name := .r, start := 1, end_ := 3, step := 1 }) = 3 ∧
    (create_job scenarioInt3 "job-1").progress.map ProgressUpdate.total =
      some (3 * baseDefault.wavelength.num_points) ∧
    baseDefault.wavelength.num_points = 401 := by
  refine ⟨?_, ?_, numPoints_int3, ?_, wavelength_default_401⟩
  · intro hs
    have hne : s.step ≠ 0 := ne_of_gt hs
    have hq : 0 ≤ |s.end_ - s.start| / s.step :=
      div_nonneg (abs_nonneg _) (le_of_lt hs)
    simp [SweepParameter.num_points, specNumPoints, hne, ratTrunc, hq]
  · intro hs
    simp [SweepParameter.num_points, hs]
  · rw [wavelength_default_401]
    show some scenarioInt3.total_simulations = some (3 * 401)
    rw [scenarioInt3_total_1203]
    decide

/-- Witness for `num_points_characterization` at the 3-point integer
parameter. -/
theorem num_points_characterization_witness :
    (SweepParameter.num_points { name := .r, start := 1, end_ := 3, step := 1 }) =
      specNumPoints { name := .r, start := 1, end_ := 3, step := 1 } :=
  (num_points_characterization { name := .r, start := 1, end_ := 3, step := 1 }).1
    (by norm_num)

/-! ### C5: cancellation and dispatch -/

/-- C5 counterexample: `run_sweep` submits every work item to the pool in the
`futures` dict comprehension before consuming any completion and never reads
the job's status, so cancelling a running 3-item job after one item has been
dispatched does not stop items 1 and 2 from being dispatched: the dispatch
list is the full index range regardless of cancellation. -/
theorem cancel_does_not_stop_dispatch_counterexample :
    run_sweep_dispatch scenarioInt3 = some [0, 1, 2] ∧
    (cancel_job (some { job_id := "job-1", status := .running })).1.map JobInfo.status =
      some SimulationStatus.cancelled ∧
    (List.drop 1 [0, 1, 2] = [1, 2]) ∧ (([1, 2] : List ℕ) ≠ []) := by
  refine ⟨?_, rfl, rfl, by decide⟩
  rw [run_sweep_dispatch, generate_scenarioInt3]
  rfl

/-- C5 amended: `cancel_job` only marks the job `CANCELLED`; `run_sweep`
submits all expanded work items up front and never checks cancellation, so
for every item `i` not yet dispatched when cancellation takes effect (after
`k` dispatches, `k ≤ i`), `i` is still dispatched afterwards. -/
theorem dispatch_ignores_cancellation (sc : SweepConfig) (cs : List SimulationConfig)
    (h : generateList sc = some cs) (k i : ℕ) (hi : i < cs.length) (hk : k ≤ i) :
    run_sweep_dispatch sc = some (List.range cs.length) ∧
    i ∈ (List.range cs.length).drop k := by
  constructor
  · rw [run_sweep_dispatch, h]
    rfl
  · refine List.mem_iff_getElem.mpr ⟨i - k, ?_, ?_⟩
    · rw [List.length_drop, List.length_range]; omega
    · rw [List.getElem_drop, List.getElem_range]; omega

/-- Witness for `dispatch_ignores_cancellation`: in the 3-item integer sweep,
item 2 is dispatched even though cancellation took effect after 1 dispatch. -/
theorem dispatch_ignores_cancellation_witness :
    (2 : ℕ) ∈ (List.range [withRadius 1, withRadius 2, withRadius 3].length).drop 1 :=
  (dispatch_ignores_cancellation scenarioInt3 [withRadius 1, withRadius 2, withRadius 3]
    generate_scenarioInt3 1 2 (by decide) (by decide)).2

/-! ### C6: result ordering -/

theorem filterMap_snd_all_some {α : Type} (f : ℕ → α) (l : List ℕ) :
    ((l.map (fun i => (i, some (f i)))).filterMap Prod.snd) = l.map f := by
  induction l with
  | nil => rfl
  | cons a l ih => simp [List.filterMap_cons, ih]

theorem run_sweep_results_all_success {α : Type} (f : ℕ → α) (order : List ℕ) (n : ℕ)
    (h : order.Perm (List.range n)) :
    run_sweep_results (fun i => some (f i)) order = (List.range n).map f := by
  rw [run_sweep_results,
    sortPairs_of_perm_range (fun i => (some (f i) : Option α)) order n h,
    filterMap_snd_all_some]

/-- C6 counterexample: the claim "for every completed job and every index i,
`results(job_id)[i]` corresponds to `expand(sweep_definition)[i]`" is false
when an item fails: in a 2-item sweep whose item 0 raises, the job still
completes, but the stored result list is `[result-of-expand[1]]` — its entry
at position 0 is the result of `expand[1]`, not of `expand[0]`, and there is
no entry at position 1 at all. -/
theorem results_shift_after_failure_counterexample :
    (run_job (create_job scenarioInt2 "job-1") scenarioInt2
      (fun i => if i = 1 then some (mkResult (withRadius 2)) else none) [1, 0]
      (fun _ => 1)).1.status = SimulationStatus.completed ∧
    (run_job (create_job scenarioInt2 "job-1") scenarioInt2
      (fun i => if i = 1 then some (mkResult (withRadius 2)) else none) [1, 0]
      (fun _ => 1)).2 = some [mkResult (withRadius 2)] ∧
    generateList scenarioInt2 = some [withRadius 1, withRadius 2] ∧
    (mkResult (withRadius 2)).config ≠ withRadius 1 := by
  refine ⟨?_, ?_, generate_scenarioInt2, ?_⟩
  · simp only [run_job, generate_scenarioInt2]
    rfl
  · simp only [run_job, generate_scenarioInt2]
    rfl
  · intro heq
    have hrad := congrArg SimulationConfig.radius heq
    simp only [mkResult, withRadius] at hrad
    norm_num at hrad

/-- C6 amended: when every work item succeeds, the result list stored by
`run_job` is ordered by original enumeration index regardless of the order in
which workers completed the items: entry `i` is the result of
`expand(sweep_definition)[i]`.  (When items fail, the failed indices are
omitted and later entries shift down, as the counterexample shows.) -/
theorem results_ordered_when_all_succeed (sc : SweepConfig) (cs : List SimulationConfig)
    (j : JobInfo) (f : ℕ → SimulationResult) (order : List ℕ) (elapsedAt : ℕ → ℚ)
    (h : generateList sc = some cs) (hp : order.Perm (List.range cs.length)) :
    (run_job j sc (fun i => some (f i)) order elapsedAt).2 =
      some ((List.range cs.length).map f) := by
  rw [run_job, h]
  by_cases hz : cs.length = 0
  · simp only [if_pos hz, hz]
    rfl
  · simp only [if_neg hz]
    rw [run_sweep_results_all_success f order cs.length hp]

/-- Witness for `results_ordered_when_all_succeed`: the 2-item integer sweep
completed in reverse order still stores results in enumeration order. -/
theorem results_ordered_when_all_succeed_witness :
    (run_job (create_job scenarioInt2 "job-1") scenarioInt2
      (fun i => some (mkResult (withRadius (i + 1)))) [1, 0] (fun _ => 1)).2 =
      some ((List.range [withRadius 1, withRadius 2].length).map
        (fun i => mkResult (withRadius (i + 1)))) :=
  results_ordered_when_all_succeed scenarioInt2 [withRadius 1, withRadius 2]
    (create_job scenarioInt2 "job-1") (fun i => mkResult (withRadius (i + 1))) [1, 0]
    (fun _ => 1) generate_scenarioInt2 (by decide)

/-! ### C7: per-item failure does not fail the job -/

theorem countP_add_countP_not (p : ℕ → Bool) (l : List ℕ) :
    l.countP p + l.countP (fun a => !p a) = l.length := by
  induction l with
  | nil => rfl
  | cons a l ih =>
      by_cases h : p a <;> simp [List.countP_cons, h] <;> omega

theorem length_filterMap_snd {α : Type} (l : List (ℕ × Option α)) :
    (l.filterMap Prod.snd).length = l.countP (fun p => p.2.isSome) := by
  induction l with
  | nil => rfl
  | cons a l ih =>
      cases ha : a.2 with
      | none => simp [List.filterMap_cons, ha, List.countP_cons, ih]
      | some v => simp [List.filterMap_cons, ha, List.countP_cons, ih]

theorem run_sweep_results_length {α : Type} (outcome : ℕ → Option α) (order : List ℕ) :
    (run_sweep_results outcome order).length =
      order.countP (fun i => (outcome i).isSome) := by
  rw [run_sweep_results, length_filterMap_snd, (sortPairs_perm _).countP_eq, List.countP_map]
  rfl

/-- C7: in every run of a 3-item job in which exactly one work item raises
inside `compute`, the job still reaches `COMPLETED` (the per-item failure
neither fails the job nor aborts the sibling items), the stored result list
has the 2 successful items, and the final progress counter `current` is 3. -/
theorem item_failure_job_completes (sc : SweepConfig) (cs : List SimulationConfig)
    (j : JobInfo) (outcome : ℕ → Option SimulationResult) (order : List ℕ)
    (elapsedAt : ℕ → ℚ) (h : generateList sc = some cs) (h3 : cs.length = 3)
    (hp : order.Perm (List.range 3))
    (h1 : (List.range 3).countP (fun i => (outcome i).isNone) = 1) :
    (run_job j sc outcome order elapsedAt).1.status = SimulationStatus.completed ∧
    (run_job j sc outcome order elapsedAt).2.map List.length = some 2 ∧
    (run_job j sc outcome order elapsedAt).1.progress.map ProgressUpdate.current = some 3 := by
  have hlen : order.length = 3 := by rw [hp.length_eq, List.length_range]
  have hcount : order.countP (fun i => (outcome i).isSome) = 2 := by
    rw [hp.countP_eq]
    have hcompl := countP_add_countP_not (fun i => (outcome i).isNone) (List.range 3)
    rw [h1, List.length_range] at hcompl
    have hsame : (List.range 3).countP (fun i => (outcome i).isSome) =
        (List.range 3).countP (fun i => !(outcome i).isNone) := by
      apply List.countP_congr
      intro x _
      cases houtx : outcome x <;> simp [houtx]
    omega
  refine ⟨?_, ?_, ?_⟩
  · simp only [run_job, h, h3, hlen]
    rfl
  · simp only [run_job, h, h3, hlen]
    show some ((run_sweep_results outcome order).length) = some 2
    rw [run_sweep_results_length, hcount]
  · simp only [run_job, h, h3, hlen]
    rfl

/-- Witness for `item_failure_job_completes`: the 3-item integer sweep with
item 1 raising, completed in the order 2, 0, 1. -/
theorem item_failure_job_completes_witness :
    (run_job (create_job scenarioInt3 "job-1") scenarioInt3
      (fun i => if i = 1 then none else some (mkResult (withRadius 1))) [2, 0, 1]
      (fun _ => 1)).1.status = SimulationStatus.completed ∧
    (run_job (create_job scenarioInt3 "job-1") scenarioInt3
      (fun i => if i = 1 then none else some (mkResult (withRadius 1))) [2, 0, 1]
      (fun _ => 1)).2.map List.length = some 2 ∧
    (run_job (create_job scenarioInt3 "job-1") scenarioInt3
      (fun i => if i = 1 then none else some (mkResult (withRadius 1))) [2, 0, 1]
      (fun _ => 1)).1.progress.map ProgressUpdate.current = some 3 :=
  item_failure_job_completes scenarioInt3 [withRadius 1, withRadius 2, withRadius 3]
    (create_job scenarioInt3 "job-1")
    (fun i => if i = 1 then none else some (mkResult (withRadius 1))) [2, 0, 1]
    (fun _ => 1) generate_scenarioInt3 rfl (by decide) (by decide)

/-! ### Expansion structure under distinct parameter names -/

theorem linspaceQ_some (a b : ℚ) (n : ℤ) (h : 0 ≤ n) :
    linspaceQ a b n = some (linspaceList a b n) := by
  rw [linspaceQ, linspaceList, if_neg (by omega)]
  by_cases h0 : n = 0
  · subst h0; norm_num
  · by_cases h1 : n = 1
    · subst h1; norm_num
    · rw [if_neg h0, if_neg h1, if_neg h1]

theorem linspaceList_length (a b : ℚ) (n : ℤ) : (linspaceList a b n).length = n.toNat := by
  by_cases h1 : n = 1
  · subst h1; rfl
  · rw [linspaceList, if_neg h1, List.length_map, List.length_range]

theorem rangeFor_some (s : SweepParameter) (h : 0 ≤ s.num_points) :
    rangeFor s = some (rangeList s) := by
  rw [rangeFor, rangeList]
  by_cases hs : s.step = 0
  · rw [if_pos hs, if_pos hs]
  · rw [if_neg hs, if_neg hs, linspaceQ_some _ _ _ h]

theorem rangeList_length (s : SweepParameter) (h : 0 ≤ s.num_points) :
    (rangeList s).length = s.num_points.toNat := by
  rw [rangeList]
  by_cases hs : s.step = 0
  · rw [if_pos hs]
    rw [SweepParameter.num_points, if_pos hs]
    rfl
  · rw [if_neg hs, linspaceList_length]

theorem buildRanges_eq (sweeps : List SweepParameter)
    (hnodup : (sweeps.map SweepParameter.name).Nodup)
    (hnn : ∀ s ∈ sweeps, 0 ≤ s.num_points) :
    buildRanges sweeps = some (sweeps.map (fun s => (s.name, rangeList s))) := by
  rw [buildRanges]
  suffices hgen : ∀ acc : List (SweepName × List ℚ),
      (∀ s ∈ sweeps, ∀ p ∈ acc, p.1 ≠ s.name) →
      List.foldlM (fun acc s => (rangeFor s).map (fun r => dictInsert acc s.name r)) acc
        sweeps = some (acc ++ sweeps.map (fun s => (s.name, rangeList s))) by
    simpa using hgen [] (by simp)
  induction sweeps with
  | nil => intro acc _; simp
  | cons s0 rest ih =>
      have hnodup0 : s0.name ∉ rest.map SweepParameter.name := by
        rw [List.map_cons, List.nodup_cons] at hnodup
        exact hnodup.1
      have hnodup2 : (rest.map SweepParameter.name).Nodup := by
        rw [List.map_cons, List.nodup_cons] at hnodup
        exact hnodup.2
      intro acc hfresh
      rw [List.foldlM_cons, rangeFor_some s0 (hnn s0 (List.mem_cons_self s0 rest))]
      have hnotin : acc.any (fun p => p.1 = s0.name) = false := by
        rw [List.any_eq_false]
        intro p hp
        simpa using hfresh s0 (List.mem_cons_self s0 rest) p hp
      have hins : dictInsert acc s0.name (rangeList s0) = acc ++ [(s0.name, rangeList s0)] := by
        rw [dictInsert, if_neg (by simp [hnotin])]
      have hfresh2 : ∀ s ∈ rest, ∀ p ∈ acc ++ [(s0.name, rangeList s0)], p.1 ≠ s.name := by
        intro s hs p hp
        rcases List.mem_append.mp hp with hpa | hpb
        · exact hfresh s (List.mem_cons_of_mem s0 hs) p hpa
        · rcases List.mem_singleton.mp hpb with rfl
          intro hcontra
          have hc2 : s0.name = s.name := hcontra
          exact hnodup0 (hc2 ▸ List.mem_map_of_mem SweepParameter.name hs)
      have ih2 := ih hnodup2 (fun s hs => hnn s (List.mem_cons_of_mem s0 hs))
        (acc ++ [(s0.name, rangeList s0)]) hfresh2
      show List.foldlM (fun acc s => (rangeFor s).map (fun r => dictInsert acc s.name r))
          (dictInsert acc s0.name (rangeList s0)) rest =
        some (acc ++ (s0 :: rest).map (fun s => (s.name, rangeList s)))
      rw [hins, ih2, List.map_cons, List.append_assoc]
      rfl

theorem flatMap_const_length {α β : Type} (l : List α) (g : α → List β) (c : ℕ)
    (h : ∀ x ∈ l, (g x).length = c) : (l.flatMap g).length = l.length * c := by
  induction l with
  | nil => simp
  | cons a l ih =>
      rw [List.flatMap_cons, List.length_append, h a (List.mem_cons_self a l),
        ih (fun x hx => h x (List.mem_cons_of_mem a hx))]
      simp [List.length_cons]
      ring

theorem cartProd_length (ls : List (List ℚ)) :
    (cartProd ls).length = (ls.map List.length).prod := by
  induction ls with
  | nil => rfl
  | cons l ls ih =>
      rw [cartProd, flatMap_const_length l _ (cartProd ls).length
        (fun x _ => by rw [List.length_map]), ih]
      simp

theorem prod_toNat_cast (l : List ℤ) (h : ∀ x ∈ l, 0 ≤ x) :
    ((l.map Int.toNat).prod : ℤ) = l.prod := by
  induction l with
  | nil => rfl
  | cons a l ih =>
      rw [List.map_cons, List.prod_cons, List.prod_cons, Nat.cast_mul,
        Int.toNat_of_nonneg (h a (List.mem_cons_self a l)),
        ih (fun x hx => h x (List.mem_cons_of_mem a hx))]

theorem total_simulations_eq (sc : SweepConfig) :
    sc.total_simulations =
      (sc.sweeps.map SweepParameter.num_points).prod *
        sc.base_config.wavelength.num_points := by
  rw [SweepConfig.total_simulations]
  congr 1
  suffices hgen : ∀ (l : List SweepParameter) (a : ℤ),
      l.foldl (fun acc s => acc * s.num_points) a =
        a * (l.map SweepParameter.num_points).prod by
    simpa using hgen sc.sweeps 1
  intro l
  induction l with
  | nil => intro a; simp
  | cons s l ih =>
      intro a
      rw [List.foldl_cons, ih, List.map_cons, List.prod_cons]
      ring

theorem generateList_eq (sc : SweepConfig)
    (hnodup : (sc.sweeps.map SweepParameter.name).Nodup)
    (hnn : ∀ s ∈ sc.sweeps, 0 ≤ s.num_points) (hne : ¬ sc.sweeps.isEmpty) :
    generateList sc = some ((cartProd (sc.sweeps.map rangeList)).map
      (fun combo => applySubst sc.base_config
        ((sc.sweeps.map SweepParameter.name).zip combo))) := by
  have hne2 : sc.sweeps.isEmpty = false := by
    rwa [Bool.not_eq_true] at hne
  simp only [generateList, hne2, Bool.false_eq_true, if_false,
    buildRanges_eq sc.sweeps hnodup hnn]
  rw [List.map_map, List.map_map]
  rfl

/-! ### C2: expansion count and job total -/

theorem rangeFor_int3 :
    rangeFor { name := .r, start := 1, end_ := 3, step := 1 } = some [1, 2, 3] := by
  rw [rangeFor, if_neg (by norm_num), numPoints_int3, linspace_1_3_3]

theorem rangeFor_int2 :
    rangeFor { name := .r, start := 1, end_ := 2, step := 1 } = some [1, 2] := by
  rw [rangeFor, if_neg (by norm_num), numPoints_int2, linspace_1_2_2]

theorem generate_sweepDupNames :
    generateList sweepDupNames = some [withRadius 1, withRadius 2] := by
  rw [generateList]
  rw [if_neg (by simp [sweepDupNames])]
  rw [show sweepDupNames.sweeps = [{ name := .r, start := 1, end_ := 3, step := 1 },
    { name := .r, start := 1, end_ := 2, step := 1 }] from rfl]
  rw [show buildRanges [{ name := .r, start := 1, end_ := 3, step := 1 },
      { name := .r, start := 1, end_ := 2, step := 1 }] =
    some [(SweepName.r, [1, 2])] by
      rw [buildRanges, List.foldlM_cons, rangeFor_int3]
      show List.foldlM (fun acc s => (rangeFor s).map (fun r => dictInsert acc s.name r))
          (dictInsert [] SweepName.r [1, 2, 3])
          [{ name := .r, start := 1, end_ := 2, step := 1 }] = some [(SweepName.r, [1, 2])]
      rw [show dictInsert [] SweepName.r [1, 2, 3] = [(SweepName.r, [1, 2, 3])] from rfl]
      rw [List.foldlM_cons, rangeFor_int2]
      rfl]
  simp only [cartProd, applySubst, List.foldl, setSweepField, List.map, List.flatMap]
  rw [round6_one, round6_two]
  simp [withRadius, baseDefault, sweepDupNames]

/-- C2 counterexample: the claim fails on two counts.  For the empty sweep
over the default base configuration, the expansion has exactly 1
configuration and the parameter product is 1, but the job's progress total is
401 (the wavelength point count multiplies in), not 1.  And for a sweep with
two parameters sharing the name `r` (3 and 2 points), the `param_ranges`
dictionary collapses the duplicate key, so only 2 configurations are produced
while the product of `num_points` is 6. -/
theorem expansion_total_counterexample :
    generateList sweepEmptyDefault = some [baseDefault] ∧
    (sweepEmptyDefault.sweeps.map SweepParameter.num_points).prod = 1 ∧
    (create_job sweepEmptyDefault "job-1").progress.map ProgressUpdate.total = some 401 ∧
    ((401 : ℤ) ≠ 1) ∧
    (generateList sweepDupNames).map List.length = some 2 ∧
    (sweepDupNames.sweeps.map SweepParameter.num_points).prod = 6 ∧
    ((2 : ℤ) ≠ 6) := by
  refine ⟨rfl, rfl, ?_, by decide, ?_, ?_, by decide⟩
  · show some sweepEmptyDefault.total_simulations = some 401
    rw [total_simulations_eq]
    rw [show sweepEmptyDefault.base_config.wavelength.num_points =
      baseDefault.wavelength.num_points from rfl, wavelength_default_401]
    rfl
  · rw [generate_sweepDupNames]
    rfl
  · rw [show sweepDupNames.sweeps = [{ name := .r, start := 1, end_ := 3, step := 1 },
      { name := .r, start := 1, end_ := 2, step := 1 }] from rfl]
    rw [List.map_cons, List.map_cons, List.map_nil, numPoints_int3, numPoints_int2]
    rfl

/-- C2 amended: for every sweep definition whose parameters have pairwise
distinct names and non-negative point counts, the expansion succeeds and
produces exactly `product(num_points(Pi))` configurations (1 when there are
no parameters), and the job created from that definition is `PENDING` with
its progress total equal to that product **times the base configuration's
wavelength point count** (`total_simulations`), precomputed at creation. -/
theorem expansion_count_and_job_total (sc : SweepConfig) (id : String)
    (hnodup : (sc.sweeps.map SweepParameter.name).Nodup)
    (hnn : ∀ s ∈ sc.sweeps, 0 ≤ s.num_points) :
    ∃ cs, generateList sc = some cs ∧
      (cs.length : ℤ) = (sc.sweeps.map SweepParameter.num_points).prod ∧
      (sc.sweeps = [] → cs.length = 1) ∧
      (create_job sc id).status = SimulationStatus.pending ∧
      (create_job sc id).progress.map ProgressUpdate.total =
        some ((sc.sweeps.map SweepParameter.num_points).prod *
          sc.base_config.wavelength.num_points) := by
  have htot : (create_job sc id).progress.map ProgressUpdate.total =
      some ((sc.sweeps.map SweepParameter.num_points).prod *
        sc.base_config.wavelength.num_points) := by
    show some sc.total_simulations = _
    rw [total_simulations_eq]
  by_cases hemp : sc.sweeps.isEmpty
  · have hnil : sc.sweeps = [] := List.isEmpty_iff.mp hemp
    refine ⟨[sc.base_config], ?_, ?_, fun _ => rfl, rfl, htot⟩
    · rw [generateList, if_pos hemp]
    · rw [hnil]; rfl
  · refine ⟨_, generateList_eq sc hnodup hnn hemp, ?_, ?_, rfl, htot⟩
    · rw [List.length_map, cartProd_length, List.map_map]
      have hcongr : sc.sweeps.map (List.length ∘ rangeList) =
          (sc.sweeps.map SweepParameter.num_points).map Int.toNat := by
        rw [List.map_map]
        apply List.map_congr_left
        intro s hs
        exact rangeList_length s (hnn s hs)
      rw [hcongr]
      exact prod_toNat_cast _ (fun x hx => by
        rcases List.mem_map.mp hx with ⟨s, hs, rfl⟩
        exact hnn s hs)
    · intro hnil
      rw [hnil] at hemp
      exact absurd rfl hemp

/-- Witness for `expansion_count_and_job_total` at the 2-point integer
sweep. -/
theorem expansion_count_and_job_total_witness :
    ∃ cs, generateList scenarioInt2 = some cs ∧
      (cs.length : ℤ) = (scenarioInt2.sweeps.map SweepParameter.num_points).prod ∧
      (scenarioInt2.sweeps = [] → cs.length = 1) ∧
      (create_job scenarioInt2 "job-1").status = SimulationStatus.pending ∧
      (create_job scenarioInt2 "job-1").progress.map ProgressUpdate.total =
        some ((scenarioInt2.sweeps.map SweepParameter.num_points).prod *
          scenarioInt2.base_config.wavelength.num_points) :=
  expansion_count_and_job_total scenarioInt2 "job-1" (by decide)
    (by
      intro s hs
      rcases List.mem_singleton.mp hs with rfl
      rw [numPoints_int2]
      decide)

/-! ### C8 and C9: substituted values and frame of the expansion -/

theorem setSweepField_frame (c : SimulationConfig) (nm : SweepName) (v : ℚ) :
    (setSweepField c nm v).n_glass = c.n_glass ∧
    (setSweepField c nm v).num_basis = c.num_basis ∧
    (setSweepField c nm v).excitation = c.excitation ∧
    (setSweepField c nm v).wavelength = c.wavelength ∧
    (setSweepField c nm v).compute_power = c.compute_power ∧
    (setSweepField c nm v).compute_fields = c.compute_fields ∧
    (setSweepField c nm v).use_advanced_stack = c.use_advanced_stack ∧
    (setSweepField c nm v).layer_stack = c.layer_stack ∧
    (setSweepField c nm v).layer_preset = c.layer_preset := by
  cases nm <;> exact ⟨rfl, rfl, rfl, rfl, rfl, rfl, rfl, rfl, rfl⟩

theorem getSweepField_setSweepField_eq (c : SimulationConfig) (nm : SweepName) (v : ℚ) :
    getSweepField nm (setSweepField c nm v) = v := by
  cases nm <;> rfl

theorem getSweepField_setSweepField_ne (c : SimulationConfig) (nm nm' : SweepName) (v : ℚ)
    (h : nm ≠ nm') : getSweepField nm (setSweepField c nm' v) = getSweepField nm c := by
  cases nm <;> cases nm' <;> first | rfl | exact absurd rfl h

theorem applySubst_frame (pairs : List (SweepName × ℚ)) (c : SimulationConfig) :
    (applySubst c pairs).n_glass = c.n_glass ∧
    (applySubst c pairs).num_basis = c.num_basis ∧
    (applySubst c pairs).excitation = c.excitation ∧
    (applySubst c pairs).wavelength = c.wavelength ∧
    (applySubst c pairs).compute_power = c.compute_power ∧
    (applySubst c pairs).compute_fields = c.compute_fields ∧
    (applySubst c pairs).use_advanced_stack = c.use_advanced_stack ∧
    (applySubst c pairs).layer_stack = c.layer_stack ∧
    (applySubst c pairs).layer_preset = c.layer_preset := by
  induction pairs generalizing c with
  | nil => exact ⟨rfl, rfl, rfl, rfl, rfl, rfl, rfl, rfl, rfl⟩
  | cons q rest ih =>
      have hstep := setSweepField_frame c q.1 (round6 q.2)
      have hrest := ih (setSweepField c q.1 (round6 q.2))
      rw [applySubst] at hrest ⊢
      rw [List.foldl_cons]
      refine ⟨?_, ?_, ?_, ?_, ?_, ?_, ?_, ?_, ?_⟩
      · rw [hrest.1, hstep.1]
      · rw [hrest.2.1, hstep.2.1]
      · rw [hrest.2.2.1, hstep.2.2.1]
      · rw [hrest.2.2.2.1, hstep.2.2.2.1]
      · rw [hrest.2.2.2.2.1, hstep.2.2.2.2.1]
      · rw [hrest.2.2.2.2.2.1, hstep.2.2.2.2.2.1]
      · rw [hrest.2.2.2.2.2.2.1, hstep.2.2.2.2.2.2.1]
      · rw [hrest.2.2.2.2.2.2.2.1, hstep.2.2.2.2.2.2.2.1]
      · rw [hrest.2.2.2.2.2.2.2.2, hstep.2.2.2.2.2.2.2.2]

theorem applySubst_get_not_mem (pairs : List (SweepName × ℚ)) (c : SimulationConfig)
    (nm : SweepName) (h : ∀ p ∈ pairs, p.1 ≠ nm) :
    getSweepField nm (applySubst c pairs) = getSweepField nm c := by
  induction pairs generalizing c with
  | nil => rfl
  | cons q rest ih =>
      rw [applySubst, List.foldl_cons]
      rw [show List.foldl (fun acc p => setSweepField acc p.1 (round6 p.2))
        (setSweepField c q.1 (round6 q.2)) rest =
        applySubst (setSweepField c q.1 (round6 q.2)) rest from rfl]
      rw [ih (setSweepField c q.1 (round6 q.2)) (fun p hp => h p (List.mem_cons_of_mem q hp))]
      exact getSweepField_setSweepField_ne c nm q.1 (round6 q.2)
        (fun hc => (h q (List.mem_cons_self q rest)) hc.symm)

theorem applySubst_get_of_mem (pairs : List (SweepName × ℚ)) (c : SimulationConfig)
    (nm : SweepName) (v : ℚ) (hnodup : (pairs.map Prod.fst).Nodup)
    (hmem : (nm, v) ∈ pairs) :
    getSweepField nm (applySubst c pairs) = round6 v := by
  induction pairs generalizing c with
  | nil => exact absurd hmem (List.not_mem_nil _)
  | cons q rest ih =>
      rw [List.map_cons, List.nodup_cons] at hnodup
      rw [applySubst, List.foldl_cons]
      rw [show List.foldl (fun acc p => setSweepField acc p.1 (round6 p.2))
        (setSweepField c q.1 (round6 q.2)) rest =
        applySubst (setSweepField c q.1 (round6 q.2)) rest from rfl]
      rcases List.mem_cons.mp hmem with heq | hrest
      · have h1 : q.1 = nm := by rw [← heq]
        have h2 : q.2 = v := by rw [← heq]
        subst h1 h2
        rw [applySubst_get_not_mem rest _ q.1 ?_]
        · exact getSweepField_setSweepField_eq c q.1 (round6 q.2)
        · intro p hp hc
          exact hnodup.1 (hc ▸ List.mem_map_of_mem Prod.fst hp)
      · exact ih (setSweepField c q.1 (round6 q.2)) hnodup.2 hrest

theorem cartProd_mem_forall2 (ls : List (List ℚ)) (c : List ℚ) (h : c ∈ cartProd ls) :
    List.Forall₂ (fun x l => x ∈ l) c ls := by
  induction ls generalizing c with
  | nil =>
      rw [cartProd] at h
      rcases List.mem_singleton.mp h with rfl
      exact List.Forall₂.nil
  | cons l ls ih =>
      rw [cartProd] at h
      rcases List.mem_flatMap.mp h with ⟨x, hx, hc⟩
      rcases List.mem_map.mp hc with ⟨c2, hc2, rfl⟩
      exact List.Forall₂.cons hx (ih c2 hc2)

theorem dictInsert_keys (d : List (SweepName × List ℚ)) (key : SweepName) (v : List ℚ) :
    ∀ q ∈ dictInsert d key v, q.1 ∈ d.map Prod.fst ∨ q.1 = key := by
  intro q hq
  rw [dictInsert] at hq
  by_cases hc : d.any (fun p => p.1 = key)
  · rw [if_pos hc] at hq
    rcases List.mem_map.mp hq with ⟨p, hp, rfl⟩
    by_cases hpk : p.1 = key
    · rw [if_pos hpk]
      right; rfl
    · rw [if_neg hpk]
      left; exact List.mem_map_of_mem Prod.fst hp
  · rw [if_neg hc] at hq
    rcases List.mem_append.mp hq with hqa | hqb
    · left; exact List.mem_map_of_mem Prod.fst hqa
    · rcases List.mem_singleton.mp hqb with rfl
      right; rfl

theorem buildRanges_keys (sweeps : List SweepParameter) (d : List (SweepName × List ℚ))
    (h : buildRanges sweeps = some d) : ∀ p ∈ d, p.1 ∈ sweeps.map SweepParameter.name := by
  rw [buildRanges] at h
  suffices hgen : ∀ (sw : List SweepParameter) (acc d2 : List (SweepName × List ℚ)),
      List.foldlM (fun acc s => (rangeFor s).map (fun r => dictInsert acc s.name r)) acc
        sw = some d2 →
      ∀ p ∈ d2, p.1 ∈ acc.map Prod.fst ∨ p.1 ∈ sw.map SweepParameter.name by
    intro p hp
    rcases hgen sweeps [] d h p hp with hfalse | hgood
    · exact absurd hfalse (by simp)
    · exact hgood
  intro sw
  induction sw with
  | nil =>
      intro acc d2 hacc p hp
      rw [List.foldlM_nil] at hacc
      have hacc2 : acc = d2 := by simpa using hacc
      subst hacc2
      exact Or.inl (List.mem_map_of_mem Prod.fst hp)
  | cons s0 rest ih =>
      intro acc d2 hacc p hp
      rw [List.foldlM_cons] at hacc
      cases hr : rangeFor s0 with
      | none => rw [hr] at hacc; exact absurd hacc (by simp)
      | some r =>
          rw [hr] at hacc
          have hacc2 : List.foldlM
              (fun acc s => (rangeFor s).map (fun r => dictInsert acc s.name r))
              (dictInsert acc s0.name r) rest = some d2 := hacc
          rcases ih (dictInsert acc s0.name r) d2 hacc2 p hp with hin | hrest
          · rcases List.mem_map.mp hin with ⟨q, hq, hqe⟩
            rcases dictInsert_keys acc s0.name r q hq with hq2 | hq2
            · exact Or.inl (hqe ▸ hq2)
            · right
              rw [← hqe, hq2, List.map_cons]
              exact List.mem_cons_self _ _
          · right
            rw [List.map_cons]
            exact List.mem_cons_of_mem _ hrest

theorem generateList_shape (sc : SweepConfig) (cs : List SimulationConfig)
    (hne : ¬ sc.sweeps.isEmpty) (h : generateList sc = some cs) :
    ∃ d, buildRanges sc.sweeps = some d ∧
      cs = (cartProd (d.map Prod.snd)).map
        (fun combo => applySubst sc.base_config ((d.map Prod.fst).zip combo)) := by
  rw [generateList, if_neg hne] at h
  cases hb : buildRanges sc.sweeps with
  | none => rw [hb] at h; exact absurd h (by simp)
  | some d =>
      rw [hb] at h
      exact ⟨d, rfl, (Option.some_injective _ h).symm⟩

/-- C9: every configuration produced by expanding a sweep definition agrees
with the base configuration on every field that is not named by one of the
sweep parameters: the fields that can never be swept (`n_glass`, `num_basis`,
`excitation`, `wavelength`, `compute_power`, `compute_fields`,
`use_advanced_stack`, `layer_stack`, `layer_preset`) are always preserved,
and each of the six sweepable fields (reached through the short-name mapping
a, r, t, h, n, k) is preserved whenever its short name is not among the sweep
parameters. -/
theorem unswept_fields_unchanged (sc : SweepConfig) (cs : List SimulationConfig)
    (hgen : generateList sc = some cs) (cfg : SimulationConfig) (hcfg : cfg ∈ cs) :
    cfg.n_glass = sc.base_config.n_glass ∧
    cfg.num_basis = sc.base_config.num_basis ∧
    cfg.excitation = sc.base_config.excitation ∧
    cfg.wavelength = sc.base_config.wavelength ∧
    cfg.compute_power = sc.base_config.compute_power ∧
    cfg.compute_fields = sc.base_config.compute_fields ∧
    cfg.use_advanced_stack = sc.base_config.use_advanced_stack ∧
    cfg.layer_stack = sc.base_config.layer_stack ∧
    cfg.layer_preset = sc.base_config.layer_preset ∧
    (∀ nm : SweepName, nm ∉ sc.sweeps.map SweepParameter.name →
      getSweepField nm cfg = getSweepField nm sc.base_config) := by
  by_cases hemp : sc.sweeps.isEmpty
  · rw [generateList, if_pos hemp] at hgen
    have hcs : cs = [sc.base_config] := (Option.some_injective _ hgen).symm
    subst hcs
    rcases List.mem_singleton.mp hcfg with rfl
    exact ⟨rfl, rfl, rfl, rfl, rfl, rfl, rfl, rfl, rfl, fun nm _ => rfl⟩
  · rcases generateList_shape sc cs hemp hgen with ⟨d, hb, rfl⟩
    rcases List.mem_map.mp hcfg with ⟨combo, hcombo, rfl⟩
    have hframe := applySubst_frame ((d.map Prod.fst).zip combo) sc.base_config
    refine ⟨hframe.1, hframe.2.1, hframe.2.2.1, hframe.2.2.2.1, hframe.2.2.2.2.1,
      hframe.2.2.2.2.2.1, hframe.2.2.2.2.2.2.1, hframe.2.2.2.2.2.2.2.1,
      hframe.2.2.2.2.2.2.2.2, ?_⟩
    intro nm hnm
    apply applySubst_get_not_mem
    intro p hp hc
    have hfst : p.1 ∈ d.map Prod.fst := (List.of_mem_zip hp).1
    rcases List.mem_map.mp hfst with ⟨q, hq, hqe⟩
    have hkey := buildRanges_keys sc.sweeps d hb q hq
    rw [hqe, hc] at hkey
    exact hnm hkey


theorem rangeList_eq_linspaceList (s : SweepParameter) :
    rangeList s = linspaceList s.start s.end_ s.num_points := by
  rw [rangeList]
  by_cases hs : s.step = 0
  · rw [if_pos hs, SweepParameter.num_points, if_pos hs, linspaceList, if_pos rfl]
  · rw [if_neg hs]

/-- Witness for `unswept_fields_unchanged` at the first configuration of the
2-point integer sweep. -/
theorem unswept_fields_unchanged_witness :
    (withRadius 1).n_glass = scenarioInt2.base_config.n_glass ∧
    (withRadius 1).num_basis = scenarioInt2.base_config.num_basis ∧
    (withRadius 1).excitation = scenarioInt2.base_config.excitation ∧
    (withRadius 1).wavelength = scenarioInt2.base_config.wavelength ∧
    (withRadius 1).compute_power = scenarioInt2.base_config.compute_power ∧
    (withRadius 1).compute_fields = scenarioInt2.base_config.compute_fields ∧
    (withRadius 1).use_advanced_stack = scenarioInt2.base_config.use_advanced_stack ∧
    (withRadius 1).layer_stack = scenarioInt2.base_config.layer_stack ∧
    (withRadius 1).layer_preset = scenarioInt2.base_config.layer_preset ∧
    (∀ nm : SweepName, nm ∉ scenarioInt2.sweeps.map SweepParameter.name →
      getSweepField nm (withRadius 1) = getSweepField nm scenarioInt2.base_config) :=
  unswept_fields_unchanged scenarioInt2 [withRadius 1, withRadius 2] generate_scenarioInt2
    (withRadius 1) (List.mem_cons_self _ _)

theorem cartProd_ne_nil (ls : List (List ℚ)) (hne : ∀ l ∈ ls, l ≠ []) :
    cartProd ls ≠ [] := by
  induction ls with
  | nil => simp [cartProd]
  | cons l ls ih =>
      rw [cartProd]
      intro hcontra
      rcases List.exists_mem_of_ne_nil l (hne l (List.mem_cons_self l ls)) with ⟨x, hx⟩
      rcases List.exists_mem_of_ne_nil (cartProd ls)
        (ih (fun l2 hl2 => hne l2 (List.mem_cons_of_mem l hl2))) with ⟨c, hc⟩
      have hmem : (x :: c) ∈ l.flatMap (fun x => (cartProd ls).map (fun c => x :: c)) :=
        List.mem_flatMap.mpr ⟨x, hx, List.mem_map_of_mem _ hc⟩
      rw [hcontra] at hmem
      exact absurd hmem (List.not_mem_nil _)

theorem cartProd_exists_at (ls : List (List ℚ)) (hne : ∀ l ∈ ls, l ≠ [])
    (j : ℕ) (hj : j < ls.length) (v : ℚ) (hv : v ∈ ls.get ⟨j, hj⟩) :
    ∃ c, c ∈ cartProd ls ∧ ∃ hcl : j < c.length, c.get ⟨j, hcl⟩ = v := by
  induction ls generalizing j with
  | nil => exact absurd hj (by simp)
  | cons l ls ih =>
      cases j with
      | zero =>
          rcases List.exists_mem_of_ne_nil (cartProd ls)
            (cartProd_ne_nil ls (fun l2 hl2 => hne l2 (List.mem_cons_of_mem l hl2))) with
            ⟨c, hc⟩
          refine ⟨v :: c, ?_, by simp, rfl⟩
          rw [cartProd]
          exact List.mem_flatMap.mpr ⟨v, hv, List.mem_map_of_mem _ hc⟩
      | succ j =>
          have hj2 : j < ls.length := by simpa using hj
          have hv2 : v ∈ ls.get ⟨j, hj2⟩ := by simpa using hv
          rcases ih (fun l2 hl2 => hne l2 (List.mem_cons_of_mem l hl2)) j hj2 hv2 with
            ⟨c, hc, hcl, hcv⟩
          rcases List.exists_mem_of_ne_nil l (hne l (List.mem_cons_self l ls)) with ⟨x, hx⟩
          refine ⟨x :: c, ?_, by simpa using hcl, by simpa using hcv⟩
          rw [cartProd]
          exact List.mem_flatMap.mpr ⟨x, hx, List.mem_map_of_mem _ hc⟩

theorem rangeList_ne_nil (s : SweepParameter) (h : 1 ≤ s.num_points) : rangeList s ≠ [] := by
  have hlen : (rangeList s).length = s.num_points.toNat := rangeList_length s (by omega)
  intro hcontra
  rw [hcontra] at hlen
  simp at hlen
  omega

theorem applySubst_zip_value (sc : SweepConfig)
    (hnodup : (sc.sweeps.map SweepParameter.name).Nodup)
    (combo : List ℚ) (hlen : combo.length = sc.sweeps.length)
    (j : ℕ) (hj : j < sc.sweeps.length) (hjc : j < combo.length) :
    getSweepField (sc.sweeps.get ⟨j, hj⟩).name
      (applySubst sc.base_config ((sc.sweeps.map SweepParameter.name).zip combo)) =
    round6 (combo.get ⟨j, hjc⟩) := by
  have hjz : j < ((sc.sweeps.map SweepParameter.name).zip combo).length := by
    rw [List.length_zip, List.length_map]
    omega
  have hjn : j < (sc.sweeps.map SweepParameter.name).length := by
    rw [List.length_map]
    omega
  have hname : (sc.sweeps.map SweepParameter.name)[j] = (sc.sweeps.get ⟨j, hj⟩).name := by
    rw [List.getElem_map]
    rfl
  have hpair : ((sc.sweeps.map SweepParameter.name).zip combo)[j] =
      ((sc.sweeps.get ⟨j, hj⟩).name, combo.get ⟨j, hjc⟩) := by
    rw [List.getElem_zip, hname]
    rfl
  have hmem : ((sc.sweeps.get ⟨j, hj⟩).name, combo.get ⟨j, hjc⟩) ∈
      (sc.sweeps.map SweepParameter.name).zip combo := by
    rw [← hpair]
    exact List.getElem_mem hjz
  have hkeys : (((sc.sweeps.map SweepParameter.name).zip combo).map Prod.fst).Nodup := by
    rw [List.map_fst_zip _ _ (by rw [List.length_map, hlen])]
    exact hnodup
  exact applySubst_get_of_mem _ _ _ _ hkeys hmem

/-- C8 amended: for every sweep parameter of a definition with pairwise
distinct parameter names and positive point counts, the `param_ranges` table
entry for that parameter is exactly `linspace(start, end, num_points)`, and
the values substituted into the expanded configurations' mapped field are
exactly those linspace values rounded to 6 decimal digits before
substitution (every substituted value is a rounded linspace value, and every
rounded linspace value is substituted in some configuration).  Expansion is a
pure function of the stored definition, so re-expanding reproduces the
identical configuration sequence. -/
theorem swept_values_are_rounded_linspace (sc : SweepConfig) (cs : List SimulationConfig)
    (hnodup : (sc.sweeps.map SweepParameter.name).Nodup)
    (hnn1 : ∀ s ∈ sc.sweeps, 1 ≤ s.num_points)
    (hgen : generateList sc = some cs)
    (p : SweepParameter) (hp : p ∈ sc.sweeps) :
    rangeList p = linspaceList p.start p.end_ p.num_points ∧
    buildRanges sc.sweeps = some (sc.sweeps.map (fun s => (s.name, rangeList s))) ∧
    (∀ cfg ∈ cs, getSweepField p.name cfg ∈
      (linspaceList p.start p.end_ p.num_points).map round6) ∧
    (∀ v ∈ (linspaceList p.start p.end_ p.num_points).map round6,
      ∃ cfg ∈ cs, getSweepField p.name cfg = v) := by
  have hnn : ∀ s ∈ sc.sweeps, 0 ≤ s.num_points := by
    intro s hs
    have := hnn1 s hs
    omega
  have hemp : ¬ sc.sweeps.isEmpty := by
    intro he
    rw [List.isEmpty_iff] at he
    rw [he] at hp
    exact absurd hp (List.not_mem_nil p)
  refine ⟨rangeList_eq_linspaceList p, buildRanges_eq sc.sweeps hnodup hnn, ?_, ?_⟩
  all_goals
    rw [generateList_eq sc hnodup hnn hemp] at hgen
    have hcs : cs = (cartProd (sc.sweeps.map rangeList)).map
        (fun combo => applySubst sc.base_config
          ((sc.sweeps.map SweepParameter.name).zip combo)) :=
      (Option.some_injective _ hgen).symm
    subst hcs
    rcases List.mem_iff_get.mp hp with ⟨j, hj⟩
    have hget : sc.sweeps.get j = p := hj
  -- membership direction
  · intro cfg hcfg
    rcases List.mem_map.mp hcfg with ⟨combo, hcombo, rfl⟩
    have hf2 := cartProd_mem_forall2 (sc.sweeps.map rangeList) combo hcombo
    have hlen : combo.length = sc.sweeps.length := by
      rw [hf2.length_eq, List.length_map]
    have hjc : (j : ℕ) < combo.length := by rw [hlen]; exact j.2
    have hval := applySubst_zip_value sc hnodup combo hlen (j : ℕ) j.2 hjc
    rw [show sc.sweeps.get ⟨(j : ℕ), j.2⟩ = p from hget] at hval
    rw [hval]
    have hv : combo.get ⟨(j : ℕ), hjc⟩ ∈ rangeList p := by
      have hthis := (List.forall₂_iff_get.mp hf2).2 (j : ℕ) hjc
        (by rw [List.length_map]; exact j.2)
      simp only [List.get_eq_getElem] at hthis
      rw [List.getElem_map] at hthis
      have hget2 : sc.sweeps[(j : ℕ)] = p := hget
      rw [hget2] at hthis
      exact hthis
    rw [← rangeList_eq_linspaceList]
    exact List.mem_map_of_mem round6 hv
  -- surjectivity direction
  · intro v hv
    rcases List.mem_map.mp hv with ⟨w, hw, rfl⟩
    rw [← rangeList_eq_linspaceList] at hw
    have hlsj : (j : ℕ) < (sc.sweeps.map rangeList).length := by
      rw [List.length_map]; exact j.2
    have hwj : w ∈ (sc.sweeps.map rangeList).get ⟨(j : ℕ), hlsj⟩ := by
      simp only [List.get_eq_getElem, List.getElem_map]
      have hget2 : sc.sweeps[(j : ℕ)] = p := hget
      rw [hget2]
      exact hw
    have hne : ∀ l ∈ sc.sweeps.map rangeList, l ≠ [] := by
      intro l hl
      rcases List.mem_map.mp hl with ⟨s, hs, rfl⟩
      exact rangeList_ne_nil s (hnn1 s hs)
    rcases cartProd_exists_at (sc.sweeps.map rangeList) hne (j : ℕ) hlsj w hwj with
      ⟨combo, hcombo, hcl, hcv⟩
    have hf2 := cartProd_mem_forall2 (sc.sweeps.map rangeList) combo hcombo
    have hlen : combo.length = sc.sweeps.length := by
      rw [hf2.length_eq, List.length_map]
    refine ⟨applySubst sc.base_config ((sc.sweeps.map SweepParameter.name).zip combo),
      List.mem_map_of_mem _ hcombo, ?_⟩
    have hval := applySubst_zip_value sc hnodup combo hlen (j : ℕ) j.2 hcl
    rw [show sc.sweeps.get ⟨(j : ℕ), j.2⟩ = p from hget] at hval
    rw [hval, hcv]

theorem linspaceList_1_3_3 : linspaceList 1 3 3 = [1, 2, 3] := by
  have h := linspaceQ_some 1 3 3 (by norm_num)
  rw [linspace_1_3_3] at h
  exact (Option.some_injective _ h).symm

/-- C8 counterexample: the claim fails for a sweep with two parameters
sharing the name `r`: the first parameter (1 to 3 step 1, 3 points) is
shadowed in the `param_ranges` dict by the second (1 to 2 step 1), so the
value `round6(3) = 3` from the first parameter's linspace is never
substituted into any expanded configuration — the discrete values substituted
are not exactly its rounded linspace. -/
theorem swept_values_counterexample :
    generateList sweepDupNames = some [withRadius 1, withRadius 2] ∧
    ({ name := SweepName.r, start := 1, end_ := 3, step := 1 } : SweepParameter) ∈
      sweepDupNames.sweeps ∧
    round6 3 ∈ (linspaceList (1 : ℚ) 3
      (SweepParameter.num_points
        { name := .r, start := 1, end_ := 3, step := 1 })).map round6 ∧
    (∀ cfg ∈ [withRadius 1, withRadius 2], getSweepField SweepName.r cfg ≠ round6 3) := by
  refine ⟨generate_sweepDupNames, ?_, ?_, ?_⟩
  · rw [show sweepDupNames.sweeps = [{ name := .r, start := 1, end_ := 3, step := 1 },
      { name := .r, start := 1, end_ := 2, step := 1 }] from rfl]
    exact List.mem_cons_self _ _
  · rw [numPoints_int3, linspaceList_1_3_3]
    rw [show ([1, 2, 3] : List ℚ).map round6 = [round6 1, round6 2, round6 3] from rfl]
    exact List.mem_cons_of_mem _ (List.mem_cons_of_mem _ (List.mem_cons_self _ _))
  · intro cfg hcfg
    rw [round6_three]
    rcases List.mem_cons.mp hcfg with rfl | hcfg2
    · show (withRadius 1).radius ≠ 3
      rw [show (withRadius 1).radius = 1 from rfl]
      norm_num
    · rcases List.mem_singleton.mp hcfg2 with rfl
      show (withRadius 2).radius ≠ 3
      rw [show (withRadius 2).radius = 2 from rfl]
      norm_num

/-- Witness for `swept_values_are_rounded_linspace` at the 3-point integer
sweep's single parameter. -/
theorem swept_values_are_rounded_linspace_witness :
    rangeList { name := .r, start := 1, end_ := 3, step := 1 } =
      linspaceList (1 : ℚ) 3
        (SweepParameter.num_points { name := .r, start := 1, end_ := 3, step := 1 }) ∧
    buildRanges scenarioInt3.sweeps =
      some (scenarioInt3.sweeps.map (fun s => (s.name, rangeList s))) ∧
    (∀ cfg ∈ [withRadius 1, withRadius 2, withRadius 3],
      getSweepField SweepName.r cfg ∈
        (linspaceList (1 : ℚ) 3
          (SweepParameter.num_points
            { name := .r, start := 1, end_ := 3, step := 1 })).map round6) ∧
    (∀ v ∈ (linspaceList (1 : ℚ) 3
        (SweepParameter.num_points
          { name := .r, start := 1, end_ := 3, step := 1 })).map round6,
      ∃ cfg ∈ [withRadius 1, withRadius 2, withRadius 3],
        getSweepField SweepName.r cfg = v) :=
  swept_values_are_rounded_linspace scenarioInt3 [withRadius 1, withRadius 2, withRadius 3]
    (by decide)
    (by
      intro s hs
      rcases List.mem_singleton.mp hs with rfl
      rw [numPoints_int3]
      decide)
    generate_scenarioInt3 { name := .r, start := 1, end_ := 3, step := 1 }
    (List.mem_singleton.mpr rfl)

end S4GUI
